import Mathlib

/-!
Shallow embedding of the visit-record-to-timeline transformation engine of the
patient-summary dashboard (src/lib/utils/vision-utils.ts, src/lib/utils/chart-utils.ts
and the chart-data module), together with theorems settling the frozen claims.

Modelling conventions:
* JavaScript strings are Lean `String`s; all string primitives that the source
  relies on (trim, toUpperCase, includes, split, regexes) are re-implemented
  structurally over `List Char` so that they evaluate inside the kernel.
* JavaScript string comparison (`<` on code units) is `jsStrLt`, lexicographic
  comparison of the underlying character lists.
* Floating point only arises in the acuity codec; every float the relevant code
  paths produce is a decimal with at most three fractional digits, so acuity
  ordinals are carried as integers scaled by 1000 (milli-logMAR units), and the
  two transcendental primitives `Math.log10` / the `Math.round(6*10^x)` fallback
  are passed in as opaque function parameters.
* `undefined`/missing JSON fields are `Option.none`; JavaScript truthiness of a
  string-or-undefined value is `jsTruthy`.
-/

/-- Lexicographic order on strings, the order JavaScript `<` and
`localeCompare` induce on ASCII date strings such as "2023-01-01". -/
abbrev jsStrLt (a b : String) : Prop := a.data < b.data

/-- JavaScript truthiness of a string-or-undefined value: `undefined`, `null`
and `""` are falsy, every other string is truthy. -/
def jsTruthy (o : Option String) : Prop := o.getD "" ≠ ""

instance (o : Option String) : Decidable (jsTruthy o) := by
  unfold jsTruthy; infer_instance

/-- ASCII whitespace, the fragment of the JavaScript `\s` class that occurs in
clinical records. -/
def isJsSpace (c : Char) : Bool :=
  c = ' ' || c = '\t' || c = '\n' || c = '\r' || c = '\x0b' || c = '\x0c'

/-- JavaScript `\w` word character class. -/
def isWordChar (c : Char) : Bool := c.isAlpha || c.isDigit || c = '_'

/-- Model of `String.prototype.trim` on the character list. -/
def jsTrimList (l : List Char) : List Char :=
  ((l.dropWhile isJsSpace).reverse.dropWhile isJsSpace).reverse

/-- Model of `String.prototype.trim`. -/
def jsTrim (s : String) : String := ⟨jsTrimList s.data⟩

/-- Model of `String.prototype.toUpperCase` (ASCII). -/
def jsToUpper (s : String) : String := ⟨s.data.map Char.toUpper⟩

/-- Model of `String.prototype.toLowerCase` (ASCII). -/
def jsToLower (s : String) : String := ⟨s.data.map Char.toLower⟩

/-- Helper for `replace(/\s+/g, " ")`: collapse every whitespace run to a
single space.  The boolean records whether we are inside a run. -/
def collapseWsAux : Bool → List Char → List Char
  | _, [] => []
  | inRun, c :: t =>
    if isJsSpace c then
      if inRun then collapseWsAux true t else ' ' :: collapseWsAux true t
    else c :: collapseWsAux false t

/-- Model of `text.trim().replace(/\s+/g, " ")`, the whitespace normalisation applied
to free-text notes before regex scanning. -/
def jsNormWs (s : String) : String := ⟨collapseWsAux false (jsTrimList s.data)⟩

/-- Is `p` a prefix of `l`? (`String.prototype.startsWith` on lists.) -/
def listIsPfx : List Char → List Char → Bool
  | [], _ => true
  | _ :: _, [] => false
  | p :: ps, c :: cs => p = c && listIsPfx ps cs

/-- Model of `String.prototype.includes` on lists: does `pat` occur inside `hay`? -/
def listHasSub : List Char → List Char → Bool
  | [], pat => pat.isEmpty
  | c :: t, pat => listIsPfx pat (c :: t) || listHasSub t pat

/-- Model of `String.prototype.includes`. -/
def strIncludes (s pat : String) : Bool := listHasSub s.data pat.data

/-- Model of `String.prototype.startsWith`. -/
def strStartsWith (s p : String) : Bool := listIsPfx p.data s.data

/-- Helper for `String.prototype.split` with a one-character separator. -/
def splitCharAux (sep : Char) : List Char → List Char → List (List Char)
  | [], acc => [acc.reverse]
  | c :: t, acc =>
    if c = sep then acc.reverse :: splitCharAux sep t []
    else splitCharAux sep t (c :: acc)

/-- Model of `String.prototype.split` with a one-character separator. -/
def jsSplit (s : String) (sep : Char) : List String :=
  (splitCharAux sep s.data []).map String.mk

/-- Numeric value of a list of decimal digit characters. -/
def digitsVal (l : List Char) : Nat :=
  l.foldl (fun a c => a * 10 + (c.toNat - 48)) 0

/-- JavaScript `parseFloat`, restricted to the sign/digits/decimal-point
grammar (no exponents): the result is `(mantissa, k)` denoting
`mantissa / 10^k`, or `none` for `NaN`. -/
def parseFloatP (s : String) : Option (Int × Nat) :=
  let l := s.data.dropWhile isJsSpace
  let sgn : Int := match l with
    | '-' :: _ => -1
    | _ => 1
  let l1 : List Char := match l with
    | '-' :: t => t
    | '+' :: t => t
    | _ => l
  let ds := l1.takeWhile Char.isDigit
  let l2 := l1.dropWhile Char.isDigit
  match ds, l2 with
  | [], '.' :: t =>
    let fs := t.takeWhile Char.isDigit
    if fs.isEmpty then none else some (sgn * digitsVal fs, fs.length)
  | [], _ => none
  | _, '.' :: t =>
    let fs := t.takeWhile Char.isDigit
    some (sgn * digitsVal (ds ++ fs), fs.length)
  | _, _ => some (sgn * digitsVal ds, 0)

/-- The rational number denoted by a `parseFloatP` result. -/
def ratOfParsed (p : Int × Nat) : ℚ := (p.1 : ℚ) / (10 : ℚ) ^ p.2

/-- The fixed Snellen/metric fraction table of `convertVAToNumeric`, with the
LogMAR values scaled by 1000 (so 0.18 is stored as 180). -/
def snellenToLogMAR : List (String × Int) :=
  [("6/6", 0), ("6/7.5", 100), ("6/9", 180), ("6/12", 300), ("6/15", 400),
   ("6/18", 480), ("6/24", 600), ("6/30", 700), ("6/36", 780), ("6/48", 900),
   ("6/60", 1000), ("6/120", 1300),
   ("20/20", 0), ("20/25", 100), ("20/30", 180), ("20/40", 300),
   ("20/50", 400), ("20/60", 480), ("20/80", 600), ("20/100", 700),
   ("20/120", 780), ("20/160", 900), ("20/200", 1000)]

/-- Model of `convertVAToNumeric` from vision-utils: maps an acuity string to its
plotting ordinal, in thousandths (the source computes `1.5 - logMAR`; here
`1500 - logMAR*1000`).  `lg` is the opaque `Math.log10`-derived primitive:
`lg q` stands for `1000 * Math.log10 q`.  Note the source guards the table
lookup with JavaScript truthiness, so a table value of `0` (for "6/6" and
"20/20") falls through to the generic fraction branch. -/
def convertVAToNumeric (lg : ℚ → Int) (va : String) : Option Int :=
  if va = "" then none else
  let upper := jsTrim (jsToUpper va)
  let step4 : Option Int :=
    if strIncludes upper "CF" then some (-500)
    else if upper = "HM" then some (-1000)
    else if upper = "PL" ∨ upper = "LP" then some (-1500)
    else if upper = "NLP" ∨ upper = "NO PL" ∨ upper = "NAS" ∨ upper = "NPL" then
      some (-2000)
    else none
  let step3 : Option Int :=
    if strStartsWith upper "N" then
      match parseFloatP ⟨upper.data.tail⟩ with
      | some p => some (1500 - lg (ratOfParsed p / 6))
      | none => step4
    else step4
  let step2 : Option Int :=
    if strIncludes upper "/" then
      match jsSplit upper '/' with
      | [a, b] =>
        match parseFloatP a, parseFloatP b with
        | some n, some d =>
          if d.1 ≠ 0 then some (1500 - lg (ratOfParsed d / ratOfParsed n))
          else step3
        | _, _ => step3
      | _ => step3
    else step3
  match List.lookup upper snellenToLogMAR with
  | some v => if v ≠ 0 then some (1500 - v) else step2
  | none => step2

/-- The inverse lookup table of `convertNumericToSnellen`, in insertion order,
LogMAR scaled by 1000. -/
def logMARToSnellen : List (Int × String) :=
  [(0, "6/6"), (100, "6/7.5"), (180, "6/9"), (300, "6/12"), (400, "6/15"),
   (480, "6/18"), (600, "6/24"), (700, "6/30"), (780, "6/36"), (900, "6/48"),
   (1000, "6/60"), (1300, "6/120")]

/-- First table entry within the ±0.05 (here ±50) tolerance, in table order. -/
def findTol : List (Int × String) → Int → Option String
  | [], _ => none
  | (v, s) :: t, lm => if (lm - v).natAbs ≤ 50 then some s else findTol t lm

/-- Model of `convertNumericToSnellen` from vision-utils, on milli-scaled ordinals.
`pw lm` is the opaque fallback primitive `Math.round(6 * Math.pow(10, lm/1000))`. -/
def convertNumericToSnellen (pw : Int → Int) (y : Int) : String :=
  let lm := 1500 - y
  match findTol logMARToSnellen lm with
  | some s => s
  | none =>
    if lm ≥ 2000 then "NLP"
    else if lm ≥ 1500 then "PL"
    else if lm ≥ 1000 then "HM"
    else if lm ≥ 500 then "CF"
    else "6/" ++ toString (pw lm)

/-- The fixed twelve-entry "6/x" family of the Snellen lookup table. -/
def metricFamily : List String :=
  ["6/6", "6/7.5", "6/9", "6/12", "6/15", "6/18", "6/24", "6/30", "6/36",
   "6/48", "6/60", "6/120"]

/-- C7: every fixed special acuity token in {CF, HM, PL, LP, NLP, NPL} is
mapped by `convertVAToNumeric` strictly below the value of "6/120", keeping
the acuity axis monotonic in clinical severity. -/
theorem special_tokens_below_6_120 (lg : ℚ → Int) (t : String)
    (ht : t ∈ ["CF", "HM", "PL", "LP", "NLP", "NPL"]) :
    ∃ vt v120 : Int, convertVAToNumeric lg t = some vt ∧
      convertVAToNumeric lg "6/120" = some v120 ∧ vt < v120 := by
  fin_cases ht
  · exact ⟨-500, 200, rfl, rfl, by decide⟩
  · exact ⟨-1000, 200, rfl, rfl, by decide⟩
  · exact ⟨-1500, 200, rfl, rfl, by decide⟩
  · exact ⟨-1500, 200, rfl, rfl, by decide⟩
  · exact ⟨-2000, 200, rfl, rfl, by decide⟩
  · exact ⟨-2000, 200, rfl, rfl, by decide⟩

/-- Witness for C7 at the concrete token "CF". -/
theorem special_tokens_below_6_120_witness :
    "CF" ∈ ["CF", "HM", "PL", "LP", "NLP", "NPL"] ∧
      ∃ vt v120 : Int, convertVAToNumeric (fun _ => 0) "CF" = some vt ∧
        convertVAToNumeric (fun _ => 0) "6/120" = some v120 ∧ vt < v120 :=
  ⟨by decide, special_tokens_below_6_120 (fun _ => 0) "CF" (by decide)⟩

/-- C10: on the twelve-entry "6/x" family the codec round-trips exactly:
converting to the numeric ordinal and back through the ±0.05-tolerance inverse
returns the original string.  The only hypothesis on the log primitive is
`Math.log10 1 = 0`, which the "6/6" entry needs because its table value `0` is
falsy and the source falls through to the generic fraction branch. -/
theorem snellen_roundtrip (lg : ℚ → Int) (pw : Int → Int) (hlg : lg 1 = 0)
    (s : String) (hs : s ∈ metricFamily) :
    (convertVAToNumeric lg s).map (convertNumericToSnellen pw) = some s := by
  fin_cases hs
  · have h1 : ratOfParsed (6, 0) / ratOfParsed (6, 0) = 1 := by
      norm_num [ratOfParsed]
    have h2 : convertVAToNumeric lg "6/6"
        = some (1500 - lg (ratOfParsed (6, 0) / ratOfParsed (6, 0))) := rfl
    rw [h2, h1, hlg]
    rfl
  · rfl
  · rfl
  · rfl
  · rfl
  · rfl
  · rfl
  · rfl
  · rfl
  · rfl
  · rfl
  · rfl

/-- Witness for C10 at "6/6" and "6/120" with the log primitive instantiated
by a function satisfying the hypothesis. -/
theorem snellen_roundtrip_witness :
    ((fun _ => (0 : Int)) : ℚ → Int) 1 = 0 ∧ "6/6" ∈ metricFamily ∧
      (convertVAToNumeric (fun _ => 0) "6/6").map
        (convertNumericToSnellen (fun _ => 0)) = some "6/6" :=
  ⟨rfl, by decide,
    snellen_roundtrip (fun _ => 0) (fun _ => 0) rfl "6/6" (by decide)⟩

/-- The fifteen-colour palette of chart-utils. -/
def colorPalette : List String :=
  ["#00bcd4", "#4ade80", "#06b6d4", "#8b5cf6", "#f472b6", "#ef4444",
   "#f97316", "#eab308", "#3b82f6", "#ec4899", "#10b981", "#f59e0b",
   "#6366f1", "#14b8a6", "#a855f7"]

/-- The module-level colour-assignment state of chart-utils: the
`procedureColorMap` (insertion-ordered) and the `colorIndex` counter. -/
structure ColorState where
  assigned : List (String × String)
  idx : Nat
deriving DecidableEq

/-- Model of `getProcedureColor` from chart-utils, with the module-level mutable state
made explicit: returns the colour and the updated state. -/
def getProcedureColor (st : ColorState) (name : String) : String × ColorState :=
  match List.lookup name st.assigned with
  | some c => (c, st)
  | none =>
    let c := (colorPalette.get? (st.idx % colorPalette.length)).getD ""
    (c, ⟨st.assigned ++ [(name, c)], st.idx + 1⟩)

/-- Model of `resetProcedureColors` from chart-utils: clears the map and the counter. -/
def resetProcedureColors : ColorState := ⟨[], 0⟩

/-- Looking a key up after appending a binding for it at the end: if the key
was unbound, the appended binding is found. -/
theorem lookup_append_self {l : List (String × String)} {k c : String}
    (h : List.lookup k l = none) :
    List.lookup k (l ++ [(k, c)]) = some c := by
  induction l with
  | nil => simp [List.lookup]
  | cons a t ih =>
    obtain ⟨a1, a2⟩ := a
    rw [List.cons_append]
    rw [List.lookup] at h ⊢
    cases hb : (k == a1) with
    | true => rw [hb] at h; exact absurd h (by simp)
    | false => rw [hb] at h; exact ih h

/-- Separator characters `[-:;,]` of the explicit-eye and foveal regexes. -/
def sepChar (c : Char) : Bool := c = '-' || c = ':' || c = ';' || c = ','

/-- Quote characters of the explicit-eye regex. -/
def quoteChar (c : Char) : Bool := c = Char.ofNat 39 || c = Char.ofNat 34

/-- Optional unit `(?:µm|um|mm|Mm|M)?` with the `i` flag: a two-character
unit whose second character is m/M, or a single m/M.  Returns the consumed
characters and the rest. -/
def unitEL : List Char → List Char × List Char
  | a :: b :: t =>
    if (a = 'µ' || a = 'u' || a = 'U' || a = 'm' || a = 'M') &&
        (b = 'm' || b = 'M') then ([a, b], t)
    else if a = 'm' || a = 'M' then ([a], b :: t)
    else ([], a :: b :: t)
  | [a] => if a = 'm' || a = 'M' then ([a], []) else ([], [a])
  | [] => ([], [])

/-- Optional unit `(?:µm|um|mm)?` of the CMT regex (two-character
alternatives only, `i` flag). -/
def unitC : List Char → List Char × List Char
  | a :: b :: t =>
    if (a = 'µ' || a = 'u' || a = 'U' || a = 'm' || a = 'M') &&
        (b = 'm' || b = 'M') then ([a, b], t)
    else ([], a :: b :: t)
  | l => ([], l)

/-- Case-insensitively consume the lowercase pattern `p` from the head of a
character list. -/
def dropCI : List Char → List Char → Option (List Char)
  | [], l => some l
  | _ :: _, [] => none
  | p :: ps, c :: cs => if c.toLower = p then dropCI ps cs else none

/-- One match attempt of `/\b(RE|LE)\s*[-:;,]?\s*['"]?(\d+\s*(?:µm|um|mm|Mm|M)?)/gi`
at the head of the list (the word boundary is checked by the scan loop).
Returns the eye tag, the captured value after `replace(/\s+/g,"")` and
`toUpperCase`, the last consumed character, and the rest of the input. -/
def matchExplicitAt (l : List Char) : Option (String × String × Char × List Char) :=
  match l with
  | c1 :: c2 :: rest =>
    if (c1 = 'R' || c1 = 'r' || c1 = 'L' || c1 = 'l') && (c2 = 'E' || c2 = 'e') then
      let eye := if c1 = 'R' || c1 = 'r' then "RE" else "LE"
      let r1 := rest.dropWhile isJsSpace
      let r2 := match r1 with
        | c :: t => if sepChar c then t else r1
        | [] => r1
      let r3 := r2.dropWhile isJsSpace
      let r4 := match r3 with
        | c :: t => if quoteChar c then t else r3
        | [] => r3
      let ds := r4.takeWhile Char.isDigit
      let r5 := r4.dropWhile Char.isDigit
      if ds.isEmpty then none
      else
        let sp := r5.takeWhile isJsSpace
        let r6 := r5.dropWhile isJsSpace
        let u := (unitEL r6).1
        let r7 := (unitEL r6).2
        some (eye, ⟨(ds ++ u).map Char.toUpper⟩,
          ((ds ++ sp) ++ u).getLast?.getD ' ', r7)
    else none
  | _ => none

/-- One match attempt of `/\bcmt\s+(\d+)\s*(?:µm|um|mm)?/gi` at the head of
the list; the capture is the digit group only. -/
def matchCmtAt (l : List Char) : Option (String × String × Char × List Char) :=
  match l with
  | c1 :: c2 :: c3 :: rest =>
    if (c1 = 'c' || c1 = 'C') && (c2 = 'm' || c2 = 'M') && (c3 = 't' || c3 = 'T') then
      let sp1 := rest.takeWhile isJsSpace
      let r1 := rest.dropWhile isJsSpace
      if sp1.isEmpty then none
      else
        let ds := r1.takeWhile Char.isDigit
        let r2 := r1.dropWhile Char.isDigit
        if ds.isEmpty then none
        else
          let sp2 := r2.takeWhile isJsSpace
          let r3 := r2.dropWhile isJsSpace
          let u := (unitC r3).1
          let r4 := (unitC r3).2
          some ("CMT", ⟨ds⟩, ((ds ++ sp2) ++ u).getLast?.getD ' ', r4)
    else none
  | _ => none

/-- One match attempt of
`/Foveal\s+Thickness\s*[-:;,]?\s*(\d+\s*(?:µm|um|mm|Mm|M)?)/gi` at the head
of the list (this regex has no word-boundary anchor). -/
def matchFovealAt (l : List Char) : Option (String × String × Char × List Char) :=
  match dropCI "foveal".data l with
  | none => none
  | some r0 =>
    let sp1 := r0.takeWhile isJsSpace
    let r1 := r0.dropWhile isJsSpace
    if sp1.isEmpty then none
    else
      match dropCI "thickness".data r1 with
      | none => none
      | some r2 =>
        let r3 := r2.dropWhile isJsSpace
        let r4 := match r3 with
          | c :: t => if sepChar c then t else r3
          | [] => r3
        let r5 := r4.dropWhile isJsSpace
        let ds := r5.takeWhile Char.isDigit
        let r6 := r5.dropWhile Char.isDigit
        if ds.isEmpty then none
        else
          let sp := r6.takeWhile isJsSpace
          let r7 := r6.dropWhile isJsSpace
          let u := (unitEL r7).1
          let r8 := (unitEL r7).2
          some ("FT", ⟨(ds ++ u).map Char.toUpper⟩,
            ((ds ++ sp) ++ u).getLast?.getD ' ', r8)

/-- Global-regex scan loop (`exec` in a `while` loop): at each position, if
the word-boundary requirement `useBnd` is satisfied, try the matcher; on a
match record it and continue after the consumed text, otherwise advance one
character.  The fuel is the remaining input length plus one. -/
def scanRxAux (useBnd : Bool)
    (m : List Char → Option (String × String × Char × List Char)) :
    Nat → Option Char → List Char → List (String × String)
  | 0, _, _ => []
  | _ + 1, _, [] => []
  | fuel + 1, prev, c :: t =>
    let bnd := !useBnd || (match prev with
      | none => true
      | some p => !(isWordChar p))
    if bnd then
      match m (c :: t) with
      | some (tag, v, lc, rest) => (tag, v) :: scanRxAux useBnd m fuel (some lc) rest
      | none => scanRxAux useBnd m fuel (some c) t
    else scanRxAux useBnd m fuel (some c) t

/-- All matches of a global regex over a string, in textual order. -/
def runScan (useBnd : Bool)
    (m : List Char → Option (String × String × Char × List Char))
    (s : String) : List (String × String) :=
  scanRxAux useBnd m (s.data.length + 1) none s.data

/-- Pattern 1 of `extractCMTFromText`: explicit RE/LE labels, last match per
eye winning. -/
def extractCMTExplicit (nn : String) : Option String × Option String :=
  (runScan true matchExplicitAt nn).foldl
    (fun acc p =>
      if p.1 = "RE" then (some p.2, acc.2)
      else if p.1 = "LE" then (acc.1, some p.2)
      else acc)
    (none, none)

/-- Pattern 2 of `extractCMTFromText`: generic `cmt <n>` matches. -/
def extractCMTMatches (nn : String) : List String :=
  (runScan true matchCmtAt nn).map (fun p => p.2)

/-- Pattern 3 of `extractCMTFromText`: `Foveal Thickness <n>` matches. -/
def extractFovealMatches (nn : String) : List String :=
  (runScan false matchFovealAt nn).map (fun p => p.2)

/-- The disambiguation if-chain of `extractCMTFromText`, verbatim from the
source: note the third unlabeled case fires for `allMatches.length >= 2`. -/
def cmtAssign (re le : Option String) (all : List String) :
    Option String × Option String :=
  if jsTruthy re ∧ jsTruthy le then (re, le)
  else if jsTruthy re ∧ ¬ jsTruthy le ∧ all.length = 1 then
    (re, some (all.getD 0 ""))
  else if ¬ jsTruthy re ∧ jsTruthy le ∧ all.length = 1 then
    (some (all.getD 0 ""), le)
  else if ¬ jsTruthy re ∧ ¬ jsTruthy le ∧ 2 ≤ all.length then
    (some (all.getD 0 ""), some (all.getD 1 ""))
  else if ¬ jsTruthy re ∧ ¬ jsTruthy le ∧ all.length = 1 then
    (some (all.getD 0 ""), some (all.getD 0 ""))
  else (re, le)

/-- Model of `parseValue` inside `extractCMTFromText`: strip non-digits, parse as an
integer, discard values outside [0, 1500]. -/
def parseCMTValue (v : Option String) : Option Nat :=
  match v with
  | none => none
  | some s =>
    let ds := s.data.filter Char.isDigit
    if ds.isEmpty then none
    else if digitsVal ds > 1500 then none
    else some (digitsVal ds)

/-- Model of `extractCMTFromText` from chart-utils: sentinel short-circuit, whitespace
normalisation, the three regex scans, the disambiguation chain, and numeric
parsing; the pair is (RE, LE). -/
def extractCMTFromText (text : String) : Option Nat × Option Nat :=
  if text = "" ∨ jsToLower text = "none" ∨ jsToLower text = "nan" ∨
      jsToLower text = "no data" then (none, none)
  else
    let nn := jsNormWs text
    let ex := extractCMTExplicit nn
    let all := extractCMTMatches nn ++ extractFovealMatches nn
    let asg := cmtAssign ex.1 ex.2 all
    (parseCMTValue asg.1, parseCMTValue asg.2)

/-- A falsy string-or-undefined value parses to `null`. -/
theorem parseCMTValue_of_falsy {o : Option String} (h : ¬ jsTruthy o) :
    parseCMTValue o = none := by
  cases o with
  | none => rfl
  | some s =>
    have hs : s = "" := by
      by_contra hne
      exact h hne
    subst hs
    rfl

/-- Case of the disambiguation chain: one explicit RE label, one generic match. -/
theorem cmtAssign_re_only {re le : Option String} {all : List String}
    (h1 : jsTruthy re) (h2 : ¬ jsTruthy le) (h3 : all.length = 1) :
    cmtAssign re le all = (re, some (all.getD 0 "")) := by
  unfold cmtAssign
  rw [if_neg (fun h => h2 h.2), if_pos ⟨h1, h2, h3⟩]

/-- Case of the disambiguation chain: one explicit LE label, one generic match. -/
theorem cmtAssign_le_only {re le : Option String} {all : List String}
    (h1 : ¬ jsTruthy re) (h2 : jsTruthy le) (h3 : all.length = 1) :
    cmtAssign re le all = (some (all.getD 0 ""), le) := by
  unfold cmtAssign
  rw [if_neg (fun h => h1 h.1), if_neg (fun h => h1 h.1), if_pos ⟨h1, h2, h3⟩]

/-- Case of the disambiguation chain: no labels and two or more generic
matches (the source condition is `allMatches.length >= 2`). -/
theorem cmtAssign_unlabeled_many {re le : Option String} {all : List String}
    (h1 : ¬ jsTruthy re) (h2 : ¬ jsTruthy le) (h3 : 2 ≤ all.length) :
    cmtAssign re le all = (some (all.getD 0 ""), some (all.getD 1 "")) := by
  unfold cmtAssign
  rw [if_neg (fun h => h1 h.1), if_neg (fun h => h1 h.1),
    if_neg (fun h => h2 h.2.1), if_pos ⟨h1, h2, h3⟩]

/-- Case of the disambiguation chain: no labels and a single generic match,
broadcast to both sides. -/
theorem cmtAssign_unlabeled_single {re le : Option String} {all : List String}
    (h1 : ¬ jsTruthy re) (h2 : ¬ jsTruthy le) (h3 : all.length = 1) :
    cmtAssign re le all = (some (all.getD 0 ""), some (all.getD 0 "")) := by
  unfold cmtAssign
  rw [if_neg (fun h => h1 h.1), if_neg (fun h => h1 h.1),
    if_neg (fun h => h2 h.2.1), if_neg (fun h => by omega),
    if_pos ⟨h1, h2, h3⟩]

/-- Case of the disambiguation chain: no labels and no generic matches. -/
theorem cmtAssign_unlabeled_none {re le : Option String} {all : List String}
    (h1 : ¬ jsTruthy re) (h2 : ¬ jsTruthy le) (h3 : all = []) :
    cmtAssign re le all = (re, le) := by
  subst h3
  unfold cmtAssign
  rw [if_neg (fun h => h1 h.1), if_neg (fun h => h1 h.1),
    if_neg (fun h => h2 h.2.1), if_neg (fun h => by simpa using h.2.2),
    if_neg (fun h => by simpa using h.2.2)]

/-- C5 counterexample: the text "cmt 100 cmt 200 cmt 300" has no explicit
RE/LE labels and three generic CMT matches; the claim says both sides must be
returned as null, but the source condition `allMatches.length >= 2` assigns
the first two matches. -/
theorem extractCMT_three_matches_cex :
    extractCMTFromText "cmt 100 cmt 200 cmt 300" = (some 100, some 200) ∧
      extractCMTFromText "cmt 100 cmt 200 cmt 300" ≠ (none, none) := by
  decide

/-- C5 amended: the disambiguation policy of `extractCMTFromText` with the
unlabeled multi-match case corrected to "two or more": one labeled side plus
exactly one generic match fills the missing side; no labels and two or more
generic matches assign the first to RE and the second to LE in textual order;
no labels and exactly one match broadcasts it to both sides; no labels and no
matches leaves both null. -/
theorem extractCMT_policy (text : String) (re0 le0 : Option String)
    (all : List String)
    (hs : ¬ (text = "" ∨ jsToLower text = "none" ∨ jsToLower text = "nan" ∨
      jsToLower text = "no data"))
    (hex : extractCMTExplicit (jsNormWs text) = (re0, le0))
    (hall : extractCMTMatches (jsNormWs text) ++ extractFovealMatches (jsNormWs text)
      = all) :
    (jsTruthy re0 → ¬ jsTruthy le0 → all.length = 1 →
      extractCMTFromText text
        = (parseCMTValue re0, parseCMTValue (some (all.getD 0 "")))) ∧
    (¬ jsTruthy re0 → jsTruthy le0 → all.length = 1 →
      extractCMTFromText text
        = (parseCMTValue (some (all.getD 0 "")), parseCMTValue le0)) ∧
    (¬ jsTruthy re0 → ¬ jsTruthy le0 → 2 ≤ all.length →
      extractCMTFromText text
        = (parseCMTValue (some (all.getD 0 "")), parseCMTValue (some (all.getD 1 "")))) ∧
    (¬ jsTruthy re0 → ¬ jsTruthy le0 → all.length = 1 →
      extractCMTFromText text
        = (parseCMTValue (some (all.getD 0 "")), parseCMTValue (some (all.getD 0 "")))) ∧
    (¬ jsTruthy re0 → ¬ jsTruthy le0 → all = [] →
      extractCMTFromText text = (none, none)) := by
  have hbody : extractCMTFromText text
      = (parseCMTValue (cmtAssign re0 le0 all).1,
         parseCMTValue (cmtAssign re0 le0 all).2) := by
    simp only [extractCMTFromText, if_neg hs, hex, hall]
  refine ⟨?_, ?_, ?_, ?_, ?_⟩
  · intro h1 h2 h3
    rw [hbody, cmtAssign_re_only h1 h2 h3]
  · intro h1 h2 h3
    rw [hbody, cmtAssign_le_only h1 h2 h3]
  · intro h1 h2 h3
    rw [hbody, cmtAssign_unlabeled_many h1 h2 h3]
  · intro h1 h2 h3
    rw [hbody, cmtAssign_unlabeled_single h1 h2 h3]
  · intro h1 h2 h3
    rw [hbody, cmtAssign_unlabeled_none h1 h2 h3]
    exact Prod.ext (parseCMTValue_of_falsy h1) (parseCMTValue_of_falsy h2)

/-- Witness for the amended C5 policy at the unlabeled two-match text
"cmt 100 cmt 200". -/
theorem extractCMT_policy_witness :
    ¬ ("cmt 100 cmt 200" = "" ∨ jsToLower "cmt 100 cmt 200" = "none" ∨
        jsToLower "cmt 100 cmt 200" = "nan" ∨
        jsToLower "cmt 100 cmt 200" = "no data") ∧
      extractCMTFromText "cmt 100 cmt 200" = (some 100, some 200) := by
  have h := extractCMT_policy "cmt 100 cmt 200" none none ["100", "200"]
    (by decide) (by decide) (by decide)
  have h3 := h.2.2.1 (by decide) (by decide) (by decide)
  exact ⟨by decide, h3.trans (by decide)⟩

/-- A per-visit, per-eye observation value: either a single string or a
per-eye string array (legacy shape). -/
inductive FieldVal where
  | s (v : String)
  | a (vs : List String)
deriving DecidableEq

/-- The anterior-segment findings object `at` of a visit. -/
structure AtObj where
  cj : Option FieldVal := none
  ac : Option FieldVal := none
  ir : Option FieldVal := none
  pu : Option FieldVal := none
  lens : Option FieldVal := none
deriving DecidableEq

/-- The fundus findings object `fu` of a visit. -/
structure FuObj where
  br : Option FieldVal := none
  mf : Option FieldVal := none
  me : Option FieldVal := none
  di : Option FieldVal := none
  ve : Option FieldVal := none
  rem : Option FieldVal := none
deriving DecidableEq

/-- An entry of a legacy `pr.act` per-eye array: a string or an arbitrarily
nested array of strings. -/
inductive ActItem where
  | s (v : String)
  | a (items : List ActItem)

/-- A structured procedure object of the current `Las`/`inj`/`surg` shape. -/
structure ProcObj where
  procedure_type : Option String := none
  laser_type : Option String := none
deriving DecidableEq

/-- A visit's procedure block; `act` is the legacy shape, `Las`/`inj`/`surg`
the current shape.  Inner `Option`s model array slots that are missing or not
arrays. -/
structure PrBlock where
  act : Option (List (Option (List ActItem))) := none
  Las : Option (List (Option (List ProcObj))) := none
  inj : Option (List (Option (List ProcObj))) := none
  surg : Option (List (Option (List ProcObj))) := none

/-- A medication's `eye` code, which the data stores as a number or a string. -/
inductive MedEye where
  | num (n : Int)
  | str (v : String)
deriving DecidableEq

/-- One entry of a visit's medication list `m`. -/
structure MedEntry where
  name : Option String := none
  eye : Option MedEye := none
  dos : Option String := none
  fre : Option String := none
deriving DecidableEq

/-- One clinical visit, restricted to the fields the timeline engine reads:
the ISO date `d`, the observation objects `at` and `fu`, the per-eye
diagnosis array `diag`, the medication list `m` and the procedure block `pr`. -/
structure Visit where
  d : String
  «at» : Option AtObj := none
  fu : Option FuObj := none
  diag : Option (List (Option FieldVal)) := none
  m : Option (List MedEntry) := none
  pr : Option PrBlock := none

/-- A patient record: the list of visits in arrival order. -/
structure PatientData where
  visits : List Visit := []

/-- A derived timeline interval {task, start, end}. -/
structure GanttData where
  task : String
  start : String
  finish : String
deriving DecidableEq

/-- A derived medication interval {task, start, end, dosage}. -/
structure MedGantt where
  task : String
  start : String
  finish : String
  dosage : String
deriving DecidableEq

/-- A deduplicated, counted procedure entry {type, item}. -/
structure ProcedureItem where
  type : String
  item : String
deriving DecidableEq

/-- Stable insertion of a visit after all visits with a date not greater
than its own. -/
def insertByDate (v : Visit) : List Visit → List Visit
  | [] => [v]
  | x :: t => if jsStrLt v.d x.d then v :: x :: t else x :: insertByDate v t

/-- Model of `[...visits].sort((a, b) => a.d.localeCompare(b.d))`: a stable
ascending-by-date sort. -/
def sortVisitsByDate (l : List Visit) : List Visit :=
  l.foldl (fun acc v => insertByDate v acc) []

/-- Helper for `replace(/[;,]+$/, "")`: drop the trailing run of semicolons
and commas. -/
def stripTrailingPunct (l : List Char) : List Char :=
  (l.reverse.dropWhile (fun c => c = ';' || c = ',')).reverse

/-- Model of `normalizeConditionName`: trim, collapse whitespace runs, strip trailing
`[;,]+`. -/
def normalizeConditionName (s : String) : String :=
  ⟨stripTrailingPunct (collapseWsAux false (jsTrimList s.data))⟩

/-- A condition-map value: interval start and end dates. -/
structure Iv where
  start : String
  finish : String
deriving DecidableEq

/-- In-place update part of `updateConditionMap`: extend the existing entry
by min-start/max-end, or append a fresh entry. -/
def updCondAux : List (String × Iv) → String → String → String → List (String × Iv)
  | [], cond, st, fin => [(cond, ⟨st, fin⟩)]
  | (c, iv) :: rest, cond, st, fin =>
    if c = cond then
      (c, ⟨if jsStrLt st iv.start then st else iv.start,
           if jsStrLt iv.finish fin then fin else iv.finish⟩) :: rest
    else (c, iv) :: updCondAux rest cond st fin

/-- Model of `updateConditionMap` from the chart-data module: ignore empty keys or
dates, otherwise merge into the insertion-ordered condition map. -/
def updateConditionMap (m : List (String × Iv)) (cond st fin : String) :
    List (String × Iv) :=
  if cond = "" ∨ st = "" ∨ fin = "" then m else updCondAux m cond st fin

/-- The `sectionFieldMap` of `getGanttData`: section key ↦ (parent, field). -/
def sectionFieldMap : List (String × String × String) :=
  [("diagnosis", "diag", ""), ("background_retina", "fu", "br"),
   ("foveal_reflex", "fu", "mf"), ("conjunctiva", "at", "cj"),
   ("media", "fu", "me"), ("anterior_chamber", "at", "ac"),
   ("iris", "at", "ir"), ("disc", "fu", "di"), ("pupil", "at", "pu"),
   ("vessels", "fu", "ve"), ("undilated_fundus", "fu", "rem"),
   ("lens", "at", "lens")]

/-- Field access on the anterior-segment object by field name. -/
def atField (a : AtObj) : String → Option FieldVal
  | "cj" => a.cj
  | "ac" => a.ac
  | "ir" => a.ir
  | "pu" => a.pu
  | "lens" => a.lens
  | _ => none

/-- Field access on the fundus object by field name. -/
def fuField (f : FuObj) : String → Option FieldVal
  | "br" => f.br
  | "mf" => f.mf
  | "me" => f.me
  | "di" => f.di
  | "ve" => f.ve
  | "rem" => f.rem
  | _ => none

/-- Model of `visit[mapping.parent]` then `parentObj[mapping.field]`: the outer
`Option` is the parent object (when missing, the source skips the visit
without closing the open run); the inner `Option` is the field value.  The
`diagnosis` mapping never reaches this function because it is special-cased
earlier. -/
def getParentField (v : Visit) (parent field : String) :
    Option (Option FieldVal) :=
  match parent with
  | "at" => v.«at».map (fun a => atField a field)
  | "fu" => v.fu.map (fun f => fuField f field)
  | _ => none

/-- Model of `value[eyeIndex] || value[0]` on an eye-indexed array value. -/
def evalFieldValue (fv : FieldVal) (i : Nat) : Option String :=
  match fv with
  | .s v => some v
  | .a vs =>
    match vs.get? i with
    | some x => if x ≠ "" then some x else vs.get? 0
    | none => vs.get? 0

/-- The running state of the interval-merge loop: the condition map, the
current run's value and the current run's start date. -/
structure RunState where
  map : List (String × Iv)
  cur : Option String
  start : Option String

/-- One visit of the interval-merge loop of `getGanttData`; `prev` is the
date of the previous visit in the sorted order (`sortedVisits[index-1]?.d`). -/
def ganttStep (mp : String × String) (i : Nat) (prev : Option String)
    (v : Visit) (st : RunState) : RunState :=
  match getParentField v mp.1 mp.2 with
  | none => st
  | some fv =>
    let value : Option String := fv.bind (fun x => evalFieldValue x i)
    if value = none ∨ jsTrim (value.getD "") = "" then
      if jsTruthy st.cur ∧ jsTruthy st.start then
        { map := updateConditionMap st.map (st.cur.getD "") (st.start.getD "")
            (prev.getD v.d),
          cur := none, start := none }
      else st
    else
      let nv := normalizeConditionName (value.getD "")
      if some nv ≠ st.cur then
        { map :=
            if jsTruthy st.cur ∧ jsTruthy st.start then
              updateConditionMap st.map (st.cur.getD "") (st.start.getD "")
                (prev.getD v.d)
            else st.map,
          cur := some nv, start := some v.d }
      else st

/-- The interval-merge loop over the sorted visits, threading the previous
visit's date. -/
def ganttLoop (mp : String × String) (i : Nat) :
    Option String → List Visit → RunState → RunState
  | _, [], st => st
  | prev, v :: rest, st =>
    ganttLoop mp i (some v.d) rest (ganttStep mp i prev v st)

/-- Model of `diag.trim().replace(/\s*×\s*\d+\s*$/, "").trim()`: does the whole list
match `\s*×\s*\d+\s*$`? -/
def timesSuffixMatch (l : List Char) : Bool :=
  match l.dropWhile isJsSpace with
  | c :: r =>
    if c = '×' then
      let r1 := r.dropWhile isJsSpace
      let ds := r1.takeWhile Char.isDigit
      let r2 := r1.dropWhile Char.isDigit
      !ds.isEmpty && (r2.dropWhile isJsSpace).isEmpty
    else false
  | [] => false

/-- Remove the leftmost suffix matching `\s*×\s*\d+\s*$`, if any. -/
def stripTimesAux : List Char → List Char
  | [] => []
  | c :: t => if timesSuffixMatch (c :: t) then [] else c :: stripTimesAux t

/-- Cleaning applied to each raw diagnosis string: trim, strip a trailing
"× N" multiplicity marker, trim again. -/
def cleanDiagString (s : String) : String :=
  jsTrim ⟨stripTimesAux (jsTrimList s.data)⟩

/-- Insertion-ordered set insertion (`Set.prototype.add`). -/
def addToSet (l : List String) (x : String) : List String :=
  if x ∈ l then l else l ++ [x]

/-- Add the normalised diagnoses of one per-eye diagnosis array to the
current set. -/
def collectDiagList (vs : List String) (acc : List String) : List String :=
  vs.foldl
    (fun a diag =>
      if diag ≠ "" ∧ jsTrim diag ≠ "" then
        let nd := normalizeConditionName (cleanDiagString diag)
        if nd ≠ "" then addToSet a nd else a
      else a)
    acc

/-- Handle one `diag[eyeIndex]` slot: a string is wrapped into a one-element
array when its trim is nonempty, an array is traversed, anything else is
skipped. -/
def collectDiagSlot (slot : Option FieldVal) (acc : List String) : List String :=
  match slot with
  | none => acc
  | some (.s v) => if jsTrim v ≠ "" then collectDiagList [v] acc else acc
  | some (.a vs) => collectDiagList vs acc

/-- Array access `slots[i]` flattening a missing or non-array slot. -/
def slotAt (slots : List (Option FieldVal)) (i : Nat) : Option FieldVal :=
  (slots.get? i).bind id

/-- Per-condition tracking state of the diagnosis algorithm. -/
structure DiagTrack where
  start : String
  lastSeen : String
deriving DecidableEq

/-- Model of `diagTracker` update for one present diagnosis: create the entry with
start = lastSeen = today, or refresh `lastSeen`. -/
def trackerTouch : List (String × DiagTrack) → String → String →
    List (String × DiagTrack)
  | [], diag, d => [(diag, ⟨d, d⟩)]
  | (k, t) :: rest, diag, d =>
    if k = diag then (k, ⟨t.start, d⟩) :: rest
    else (k, t) :: trackerTouch rest diag d

/-- The closure pass over the tracker: a condition absent from the current
set whose last-seen date differs from today is emitted into the map and
deleted from the tracker. -/
def diagClosePass (dm : List (String × Iv)) (tracker : List (String × DiagTrack))
    (cur : List String) (d : String) :
    List (String × Iv) × List (String × DiagTrack) :=
  tracker.foldl
    (fun acc e =>
      if e.1 ∉ cur ∧ e.2.lastSeen ≠ d then
        (updateConditionMap acc.1 e.1 e.2.start e.2.lastSeen, acc.2)
      else (acc.1, acc.2 ++ [e]))
    (dm, [])

/-- One visit of `getDiagnosisGanttData`: collect the visit's normalised
diagnosis set (for a single-eye index also the both-eyes slot 2), touch the
tracker, then run the closure pass.  A visit without a `diag` array is
skipped entirely. -/
def diagVisitStep (i : Nat) (acc : List (String × Iv) × List (String × DiagTrack))
    (v : Visit) : List (String × Iv) × List (String × DiagTrack) :=
  match v.diag with
  | none => acc
  | some slots =>
    let cur1 := collectDiagSlot (slotAt slots i) []
    let cur := if i = 0 ∨ i = 1 then collectDiagSlot (slotAt slots 2) cur1 else cur1
    let tracker1 := cur.foldl (fun tr dg => trackerTouch tr dg v.d) acc.2
    diagClosePass acc.1 tracker1 cur v.d

/-- Model of `getDiagnosisGanttData` from the chart-data module. -/
def getDiagnosisGanttData (pd : PatientData) (i : Nat) : List GanttData :=
  let sorted := sortVisitsByDate pd.visits
  let res := sorted.foldl (fun acc v => diagVisitStep i acc v) ([], [])
  let finalMap := res.2.foldl
    (fun dm e => updateConditionMap dm e.1 e.2.start e.2.lastSeen) res.1
  (finalMap.map (fun e => GanttData.mk e.1 e.2.start e.2.finish)).filter
    (fun g => g.start ≠ "" ∧ g.finish ≠ "")

/-- The non-diagnosis body of `getGanttData`: run the interval-merge loop
over the date-sorted visits, close any still-open run at the last visit's
date, and emit the map entries with nonempty bounds. -/
def ganttNonDiag (mp : String × String) (i : Nat) (visits : List Visit) :
    List GanttData :=
  let sorted := sortVisitsByDate visits
  let st := ganttLoop mp i none sorted ⟨[], none, none⟩
  let finalMap :=
    if jsTruthy st.cur ∧ jsTruthy st.start then
      match sorted.getLast? with
      | some lv => updateConditionMap st.map (st.cur.getD "")
          (st.start.getD "") lv.d
      | none => st.map
    else st.map
  (finalMap.map (fun e => GanttData.mk e.1 e.2.start e.2.finish)).filter
    (fun g => g.start ≠ "" ∧ g.finish ≠ "")

/-- Model of `getGanttData` from the chart-data module: look the section key up in
the field map (unknown keys yield an empty list), special-case the diagnosis
category, otherwise run the interval-merge engine. -/
def getGanttData (pd : PatientData) (sect : String) (i : Nat) : List GanttData :=
  match List.lookup sect sectionFieldMap with
  | none => []
  | some mp =>
    if sect = "diagnosis" then getDiagnosisGanttData pd i
    else ganttNonDiag mp i pd.visits

/-- The per-key running entry of the medications map. -/
structure MedState where
  start : String
  finish : String
  dosage : String
deriving DecidableEq

/-- Model of `Map.prototype.set`: update in place or append. -/
def mapSetMed : List (String × MedState) → String → MedState →
    List (String × MedState)
  | [], k, e => [(k, e)]
  | (k0, e0) :: rest, k, e =>
    if k0 = k then (k0, e) :: rest else (k0, e0) :: mapSetMed rest k e

/-- The eye-label suffix derived from a medication's numeric or string `eye`
code. -/
def medEyeLabel (eye : Option MedEye) : String :=
  match eye with
  | some (.num 1) => " (RE)"
  | some (.str "1") => " (RE)"
  | some (.num 2) => " (LE)"
  | some (.str "2") => " (LE)"
  | some (.num 3) => " (BE)"
  | some (.str "3") => " (BE)"
  | _ => ""

/-- The dosage display text: `dos x fre` when both are truthy, else `dos`
when truthy, else empty. -/
def medDosageStr (med : MedEntry) : String :=
  if jsTruthy med.dos ∧ jsTruthy med.fre then
    med.dos.getD "" ++ " x " ++ med.fre.getD ""
  else if jsTruthy med.dos then med.dos.getD ""
  else ""

/-- Processing of one medication entry of one visit in
`getMedicationsGanttData`: skip nameless entries and empty dates, otherwise
fetch or create the per-key entry (a fresh entry starts at the sentinel
range with the current dosage text), lower the min start (adopting the
dosage when the new date is strictly earlier and its dosage text nonempty)
and raise the max end. -/
def medStep (mm : List (String × MedState)) (visitDate : String)
    (med : MedEntry) : List (String × MedState) :=
  let drugName := jsTrim (med.name.getD "")
  if drugName = "" then mm
  else
    let task := drugName ++ medEyeLabel med.eye
    let dos := medDosageStr med
    if visitDate = "" then mm
    else
      let e := (List.lookup task mm).getD ⟨"9999-12-31", "0001-01-01", dos⟩
      let e1 : MedState :=
        ⟨if jsStrLt visitDate e.start then visitDate else e.start,
         if jsStrLt e.finish visitDate then visitDate else e.finish,
         if jsStrLt visitDate e.start ∧ dos ≠ "" then dos else e.dosage⟩
      mapSetMed mm task e1

/-- The visit loop of `getMedicationsGanttData`: visits in arrival order
(no date sort), each visit's medication list folded through `medStep`. -/
def medVisitsFold (visits : List Visit) (mm : List (String × MedState)) :
    List (String × MedState) :=
  visits.foldl
    (fun acc v =>
      match v.m with
      | some meds => meds.foldl (fun a med => medStep a v.d med) acc
      | none => acc)
    mm

/-- Model of `getMedicationsGanttData` from the chart-data module: entries whose
range still holds a sentinel bound are dropped at the end. -/
def getMedicationsGanttData (pd : PatientData) : List MedGantt :=
  let mm := medVisitsFold pd.visits []
  (mm.map (fun e => MedGantt.mk e.1 e.2.start e.2.finish e.2.dosage)).filter
    (fun g => g.start ≠ "9999-12-31" ∧ g.finish ≠ "0001-01-01")

/-- Model of `flattenProcedureArray`: flatten arbitrarily nested string arrays. -/
def flattenProcedureArray : List ActItem → List String
  | [] => []
  | ActItem.s v :: t => v :: flattenProcedureArray t
  | ActItem.a items :: t => flattenProcedureArray items ++ flattenProcedureArray t

/-- Model of `isProcedurePlaceholder`: the fixed "no procedure" sentinel set. -/
def isProcedurePlaceholder (proc : String) : Bool :=
  let n := jsToLower (jsTrim proc)
  strIncludes n "no re procedure" || strIncludes n "no le procedure" ||
  strIncludes n "no be procedure" || n = "no procedure" || n = "none" ||
  n = "nil" || n = "n/a" || n = "-"

/-- The injection keyword list of `classifyProcedureType`. -/
def injectionKeywords : List String :=
  ["injection", "inj", "intravitreal", "ivt", "ivi", "avastin", "bevacizumab",
   "lucentis", "ranibizumab", "eylea", "aflibercept", "pagenax", "accentrix",
   "beovu", "brolucizumab", "vabysmo", "faricimab", "ozurdex", "dexamethasone",
   "tricort", "triamcinolone", "kenalog", "iluvien", "fluocinolone", "jetrea",
   "ocriplasmin", "macugen", "pegaptanib", "retisert", "anti-vegf", "antivegf",
   "oceva", "ranieyes", "razumab"]

/-- The laser keyword list of `classifyProcedureType`. -/
def laserKeywords : List String :=
  ["laser", "photocoagulation", "pfc", "argon", "diode", "micropulse",
   "pascal", "pattern scan", "panretinal photocoagulation", "prp",
   "focal laser", "grid laser", "macular laser", "scatter laser",
   "peripheral laser", "retinal photocoagulation", "laser photocoagulation",
   "photodynamic therapy", "pdt", "verteporfin", "visudyne"]

/-- The surgery keyword list of `classifyProcedureType`. -/
def surgicalKeywords : List String :=
  ["vitrectomy", "ppv", "pars plana vitrectomy", "membrane peel",
   "epiretinal membrane", "macular hole", "retinal detachment",
   "scleral buckle", "pneumatic retinopexy", "endolaser",
   "endophotocoagulation", "silicone oil", "gas tamponade", "c3f8", "sf6",
   "air tamponade"]

/-- Model of `classifyProcedureType`: case-insensitive keyword search, injections
first, then lasers, then surgery, defaulting to "Procedure". -/
def classifyProcedureType (procedureName : String) : String :=
  let name := jsTrim (jsToLower procedureName)
  if injectionKeywords.any (fun k => strIncludes name k) then "Injection"
  else if laserKeywords.any (fun k => strIncludes name k) then "Laser"
  else if surgicalKeywords.any (fun k => strIncludes name k) then "Surgery"
  else "Procedure"

/-- Model of `isNewProcedureFormat`: the current shape is signalled by the presence of
any of the `Las`/`inj`/`surg` fields. -/
def isNewProcedureFormat (pr : PrBlock) : Bool :=
  pr.Las.isSome || pr.inj.isSome || pr.surg.isSome

/-- Occurrence-count map update (`procCount.set(name, (procCount.get(name) || 0) + 1)`). -/
def bumpCount : List (String × Nat) → String → List (String × Nat)
  | [], n => [(n, 1)]
  | (k, c) :: rest, n =>
    if k = n then (k, c + 1) :: rest else (k, c) :: bumpCount rest n

/-- Model of `pr.X[eyeIndex]` for a current-shape category: the per-eye array of
procedure objects, or empty when the category or the slot is missing. -/
def newFmtEyeProcs (cat : Option (List (Option (List ProcObj)))) (i : Nat) :
    List ProcObj :=
  match cat with
  | none => []
  | some arr =>
    match (arr.get? i).bind id with
    | some procs => procs
    | none => []

/-- Count the laser procedures of one visit: the display name appends the
laser sub-type when present. -/
def countLas (counts : List (String × Nat)) (procs : List ProcObj) :
    List (String × Nat) :=
  procs.foldl
    (fun acc proc =>
      if jsTruthy proc.procedure_type then
        let pt := proc.procedure_type.getD ""
        let name :=
          if jsTruthy proc.laser_type then pt ++ " - " ++ proc.laser_type.getD ""
          else pt
        bumpCount acc name
      else acc)
    counts

/-- Count the injection or surgery procedures of one visit (plain
`procedure_type` names). -/
def countInjSurg (counts : List (String × Nat)) (procs : List ProcObj) :
    List (String × Nat) :=
  procs.foldl
    (fun acc proc =>
      if jsTruthy proc.procedure_type then
        bumpCount acc (proc.procedure_type.getD "")
      else acc)
    counts

/-- One visit of `getProceduresFromNewFormat`: only visits whose procedure
block is in the current shape contribute. -/
def newFormatVisitCounts (i : Nat) (counts : List (String × Nat)) (v : Visit) :
    List (String × Nat) :=
  match v.pr with
  | some pr =>
    if isNewProcedureFormat pr then
      let c1 := countLas counts (newFmtEyeProcs pr.Las i)
      let c2 := countInjSurg c1 (newFmtEyeProcs pr.inj i)
      countInjSurg c2 (newFmtEyeProcs pr.surg i)
    else counts
  | none => counts

/-- The name-pattern-based type assignment of the new-format result mapping. -/
def newFormatItemType (name : String) : String :=
  if strIncludes name "Laser" || strIncludes name "PRP" ||
      strIncludes name "Photocoagulation" then "Laser"
  else if strIncludes name "Injection" || strIncludes name "Anti-VEGF" ||
      strIncludes name "Steroid" then "Injection"
  else if strIncludes name "Surgery" || strIncludes name "Vitrectomy" ||
      strIncludes name "Membrane" then "Surgery"
  else "Procedure"

/-- Display label with the occurrence count appended when above one. -/
def countLabel (name : String) (count : Nat) : String :=
  name ++ (if count > 1 then " (" ++ toString count ++ "x)" else "")

/-- Model of `getProceduresFromNewFormat`: accumulate counts over the visits in the
current shape, then map names to typed display items. -/
def getProceduresFromNewFormat (pd : PatientData) (i : Nat) : List ProcedureItem :=
  let counts := pd.visits.foldl (fun acc v => newFormatVisitCounts i acc v) []
  counts.map (fun e => ProcedureItem.mk (newFormatItemType e.1) (countLabel e.1 e.2))

/-- Legacy extraction of one `act` slot: flatten and keep nonempty strings. -/
def legacySlotStrings (act : List (Option (List ActItem))) (j : Nat) :
    List String :=
  match (act.get? j).bind id with
  | some items => (flattenProcedureArray items).filter (fun p => p ≠ "")
  | none => []

/-- One visit of the legacy path of `getProcedures`: for the both-eyes index
the two per-eye slots are concatenated; trimmed names that are placeholders
are dropped before counting. -/
def legacyVisitCounts (i : Nat) (counts : List (String × Nat)) (v : Visit) :
    List (String × Nat) :=
  match v.pr with
  | none => counts
  | some pr =>
    match pr.act with
    | none => counts
    | some act =>
      let toCheck :=
        if i = 2 then legacySlotStrings act 0 ++ legacySlotStrings act 1
        else legacySlotStrings act i
      toCheck.foldl
        (fun acc proc =>
          let name := jsTrim proc
          if name ≠ "" ∧ isProcedurePlaceholder name = false then
            bumpCount acc name
          else acc)
        counts

/-- Model of `getProcedures` from the chart-data module: if ANY visit's procedure
block is in the current shape the whole record is processed by
`getProceduresFromNewFormat` (which skips legacy visits); only otherwise is
the legacy keyword-classified path used. -/
def getProcedures (pd : PatientData) (i : Nat) : List ProcedureItem :=
  let hasNewFormat := pd.visits.any
    (fun v =>
      match v.pr with
      | some pr => isNewProcedureFormat pr
      | none => false)
  if hasNewFormat then getProceduresFromNewFormat pd i
  else
    let counts := pd.visits.foldl (fun acc v => legacyVisitCounts i acc v) []
    counts.map (fun e =>
      ProcedureItem.mk (classifyProcedureType e.1) (countLabel e.1 e.2))

/-- C8: colour assignment is stable within one state instance: a second call
with the same name returns the same colour and leaves the state (in
particular the palette index) unchanged, and after a reset any
not-yet-assigned name receives the first palette colour. -/
theorem getProcedureColor_stable (st : ColorState) (name : String) :
    (getProcedureColor (getProcedureColor st name).2 name).1
        = (getProcedureColor st name).1 ∧
      (getProcedureColor (getProcedureColor st name).2 name).2
        = (getProcedureColor st name).2 ∧
      ∀ n : String, (getProcedureColor resetProcedureColors n).1 = "#00bcd4" := by
  refine ⟨?_, ?_, fun n => rfl⟩ <;>
  · cases h : List.lookup name st.assigned with
    | some c => simp [getProcedureColor, h]
    | none => simp [getProcedureColor, h, lookup_append_self h]

/-- The eleven non-diagnosis observation-category keys, in field-map order. -/
def obsSectionKeys : List String :=
  ["background_retina", "foveal_reflex", "conjunctiva", "media",
   "anterior_chamber", "iris", "disc", "pupil", "vessels",
   "undilated_fundus", "lens"]

/-- A visit holding one observation value under the parent/field path of the
given section key (the record shapes used by the interval-merge scenarios). -/
def mkObsVisit (key d : String) (v : FieldVal) : Visit :=
  match key with
  | "background_retina" => { d := d, fu := some { br := some v } }
  | "foveal_reflex" => { d := d, fu := some { mf := some v } }
  | "conjunctiva" => { d := d, «at» := some { cj := some v } }
  | "media" => { d := d, fu := some { me := some v } }
  | "anterior_chamber" => { d := d, «at» := some { ac := some v } }
  | "iris" => { d := d, «at» := some { ir := some v } }
  | "disc" => { d := d, fu := some { di := some v } }
  | "pupil" => { d := d, «at» := some { pu := some v } }
  | "vessels" => { d := d, fu := some { ve := some v } }
  | "undilated_fundus" => { d := d, fu := some { rem := some v } }
  | "lens" => { d := d, «at» := some { lens := some v } }
  | _ => { d := d }

/-- C2: a record with three visits dated 2023-01-01/2023-06-01/2023-12-01
whose value for one non-diagnosis observation category is Clear, Clear,
Hazy produces exactly the two intervals {Clear, 2023-01-01, 2023-06-01}
and {Hazy, 2023-12-01, 2023-12-01}, for every category key and eye index. -/
theorem getGanttData_value_change_intervals :
    ∀ key ∈ obsSectionKeys, ∀ i ∈ ([0, 1, 2] : List Nat),
      getGanttData ⟨[mkObsVisit key "2023-01-01" (.s "Clear"),
        mkObsVisit key "2023-06-01" (.s "Clear"),
        mkObsVisit key "2023-12-01" (.s "Hazy")]⟩ key i
      = [⟨"Clear", "2023-01-01", "2023-06-01"⟩,
         ⟨"Hazy", "2023-12-01", "2023-12-01"⟩] := by
  decide

/-- Witness for C2 at the category "media" and eye index 0. -/
theorem getGanttData_value_change_intervals_witness :
    ("media" ∈ obsSectionKeys ∧ (0 : Nat) ∈ ([0, 1, 2] : List Nat)) ∧
      getGanttData ⟨[mkObsVisit "media" "2023-01-01" (.s "Clear"),
        mkObsVisit "media" "2023-06-01" (.s "Clear"),
        mkObsVisit "media" "2023-12-01" (.s "Hazy")]⟩ "media" 0
      = [⟨"Clear", "2023-01-01", "2023-06-01"⟩,
         ⟨"Hazy", "2023-12-01", "2023-12-01"⟩] :=
  ⟨⟨by decide, by decide⟩,
    getGanttData_value_change_intervals "media" (by decide) 0 (by decide)⟩

/-- C9: a section key outside the eleven observation categories that is not
"diagnosis" is absent from the field map, so `getGanttData` returns the
empty interval list (and, being total, raises no error). -/
theorem getGanttData_unknown_section (pd : PatientData) (sect : String) (i : Nat)
    (h1 : sect ∉ obsSectionKeys) (h2 : sect ≠ "diagnosis") :
    getGanttData pd sect i = [] := by
  simp only [obsSectionKeys, List.mem_cons, List.not_mem_nil, or_false,
    not_or] at h1
  obtain ⟨q1, q2, q3, q4, q5, q6, q7, q8, q9, q10, q11⟩ := h1
  simp only [getGanttData, sectionFieldMap, List.lookup,
    beq_eq_false_iff_ne.mpr h2, beq_eq_false_iff_ne.mpr q1,
    beq_eq_false_iff_ne.mpr q2, beq_eq_false_iff_ne.mpr q3,
    beq_eq_false_iff_ne.mpr q4, beq_eq_false_iff_ne.mpr q5,
    beq_eq_false_iff_ne.mpr q6, beq_eq_false_iff_ne.mpr q7,
    beq_eq_false_iff_ne.mpr q8, beq_eq_false_iff_ne.mpr q9,
    beq_eq_false_iff_ne.mpr q10, beq_eq_false_iff_ne.mpr q11]

/-- Witness for C9 at the unknown key "foo". -/
theorem getGanttData_unknown_section_witness :
    ("foo" ∉ obsSectionKeys ∧ "foo" ≠ "diagnosis") ∧
      getGanttData ⟨[]⟩ "foo" 0 = [] :=
  ⟨⟨by decide, by decide⟩,
    getGanttData_unknown_section ⟨[]⟩ "foo" 0 (by decide) (by decide)⟩

/-- A record mixing the two procedure shapes: the first visit carries a
legacy `act` block with "vitrectomy", the second a current-shape injection
"Avastin". -/
def mixedShapeRecord : PatientData :=
  ⟨[{ d := "2023-01-01",
      pr := some { act := some [some [ActItem.s "vitrectomy"], some []] } },
    { d := "2023-02-01",
      pr := some { inj := some [some [{ procedure_type := some "Avastin" }],
        some []] } }]⟩

/-- C1 failing input: on a record with one legacy-shape visit (act entry
"vitrectomy") and one current-shape visit (injection "Avastin"),
`getProcedures` takes the record-wide new-format path and returns only the
Avastin entry — the legacy visit's procedure is dropped instead of being
keyword-classified, contradicting the per-visit shape rule the spec
requires. -/
theorem getProcedures_mixed_shapes_drops_legacy :
    getProcedures mixedShapeRecord 0 = [⟨"Procedure", "Avastin"⟩] ∧
      ∀ g ∈ getProcedures mixedShapeRecord 0,
        strIncludes g.item "vitrectomy" = false := by
  decide

/-- A record whose earliest-dated TIMOLOL occurrence has empty dosage text
and whose later occurrence carries the dosage "B". -/
def medEmptyFirstRecord : PatientData :=
  ⟨[{ d := "2023-01-01", m := some [{ name := some "TIMOLOL" }] },
    { d := "2023-06-01",
      m := some [{ name := some "TIMOLOL", dos := some "B" }] }]⟩

/-- C6 counterexample: the earliest-dated occurrence of the key TIMOLOL has
empty dosage text and is processed first, so the emitted dosage stays empty
even though a later-dated occurrence carries the non-empty dosage "B" — the
emitted dosage is not that of the earliest-dated occurrence with non-empty
dosage text. -/
theorem getMedicationsGanttData_empty_first_cex :
    getMedicationsGanttData medEmptyFirstRecord
      = [⟨"TIMOLOL", "2023-01-01", "2023-06-01", ""⟩] ∧ ("" : String) ≠ "B" := by
  decide

/-- No character list is lexicographically below the empty list. -/
theorem not_listLt_nil {l : List Char} (h : l < []) : False := by cases h

/-- Nothing is lexicographically below the empty string. -/
theorem jsStrLt_ne_empty {a b : String} (h : jsStrLt a b) : b ≠ "" := by
  intro hb
  subst hb
  exact not_listLt_nil h

/-- Core of C3, parametric in the section mapping: on four visits whose
extracted values are A, A, "", A at strictly ascending dates, the
interval-merge engine emits the single merged interval [d1, d4]. -/
theorem ganttNonDiag_gap_merge (mp : String × String) (i : Nat)
    (v1 v2 v3 v4 : Visit) (A d1 d2 d3 d4 : String)
    (hv1 : getParentField v1 mp.1 mp.2 = some (some (.s A)))
    (hv2 : getParentField v2 mp.1 mp.2 = some (some (.s A)))
    (hv3 : getParentField v3 mp.1 mp.2 = some (some (.s "")))
    (hv4 : getParentField v4 mp.1 mp.2 = some (some (.s A)))
    (hd1 : v1.d = d1) (hd2 : v2.d = d2) (hd3 : v3.d = d3) (hd4 : v4.d = d4)
    (hA : normalizeConditionName A = A) (hAt : jsTrim A = A) (hA0 : A ≠ "")
    (h0 : d1 ≠ "")
    (h12 : jsStrLt d1 d2) (h23 : jsStrLt d2 d3) (h34 : jsStrLt d3 d4) :
    ganttNonDiag mp i [v1, v2, v3, v4] = [⟨A, d1, d4⟩] := by
  have h13 := lt_trans h12 h23
  have h24 := lt_trans h23 h34
  have h14 := lt_trans h13 h34
  have n21 : ¬ jsStrLt d2 d1 := lt_asymm h12
  have n31 : ¬ jsStrLt d3 d1 := lt_asymm h13
  have n32 : ¬ jsStrLt d3 d2 := lt_asymm h23
  have n41 : ¬ jsStrLt d4 d1 := lt_asymm h14
  have n42 : ¬ jsStrLt d4 d2 := lt_asymm h24
  have n43 : ¬ jsStrLt d4 d3 := lt_asymm h34
  have e2 : d2 ≠ "" := jsStrLt_ne_empty h12
  have e3 : d3 ≠ "" := jsStrLt_ne_empty h23
  have e4 : d4 ≠ "" := jsStrLt_ne_empty h34
  have ht0 : jsTrim "" = "" := rfl
  have hlast : ([v1, v2, v3, v4] : List Visit).getLast? = some v4 := rfl
  simp [ganttNonDiag, sortVisitsByDate, insertByDate, ganttLoop, ganttStep,
    hv1, hv2, hv3, hv4, hd1, hd2, hd3, hd4, evalFieldValue, Option.bind,
    hA, hAt, hA0, ht0, jsTruthy, updateConditionMap, updCondAux,
    h0, e2, e3, e4, n21, n31, n32, n41, n42, n43, h12, h23, h34, h13, h24,
    h14, hlast]

/-- C3: with four visits at strictly ascending dates whose category values
are [A, A, "", A], `getGanttData` emits exactly one interval for the key A,
spanning d1 to d4: the recurrence after the blank-value gap merges into the
existing map entry by min-start/max-end instead of producing a second
disjoint interval. -/
theorem getGanttData_gap_remerge (key : String) (i : Nat)
    (A d1 d2 d3 d4 : String) (hk : key ∈ obsSectionKeys)
    (hA : normalizeConditionName A = A) (hAt : jsTrim A = A) (hA0 : A ≠ "")
    (h0 : d1 ≠ "")
    (h12 : jsStrLt d1 d2) (h23 : jsStrLt d2 d3) (h34 : jsStrLt d3 d4) :
    getGanttData ⟨[mkObsVisit key d1 (.s A), mkObsVisit key d2 (.s A),
      mkObsVisit key d3 (.s ""), mkObsVisit key d4 (.s A)]⟩ key i
    = [⟨A, d1, d4⟩] := by
  fin_cases hk <;>
    exact ganttNonDiag_gap_merge _ i _ _ _ _ A d1 d2 d3 d4 rfl rfl rfl rfl
      rfl rfl rfl rfl hA hAt hA0 h0 h12 h23 h34

/-- Witness for C3 at the category "media", the value "Edema" and four
concrete dates. -/
theorem getGanttData_gap_remerge_witness :
    ("media" ∈ obsSectionKeys ∧ normalizeConditionName "Edema" = "Edema" ∧
        jsTrim "Edema" = "Edema" ∧ ("Edema" : String) ≠ "" ∧
        ("2023-01-01" : String) ≠ "" ∧
        jsStrLt "2023-01-01" "2023-02-01" ∧ jsStrLt "2023-02-01" "2023-03-01" ∧
        jsStrLt "2023-03-01" "2023-04-01") ∧
      getGanttData ⟨[mkObsVisit "media" "2023-01-01" (.s "Edema"),
        mkObsVisit "media" "2023-02-01" (.s "Edema"),
        mkObsVisit "media" "2023-03-01" (.s ""),
        mkObsVisit "media" "2023-04-01" (.s "Edema")]⟩ "media" 0
      = [⟨"Edema", "2023-01-01", "2023-04-01"⟩] :=
  ⟨⟨by decide, by decide, by decide, by decide, by decide, by decide,
      by decide, by decide⟩,
    getGanttData_gap_remerge "media" 0 "Edema" "2023-01-01" "2023-02-01"
      "2023-03-01" "2023-04-01" (by decide) (by decide) (by decide)
      (by decide) (by decide) (by decide) (by decide) (by decide)⟩

/-- Strictly ordered strings are distinct. -/
theorem jsStrLt_ne {a b : String} (h : jsStrLt a b) : a ≠ b := by
  intro he
  subst he
  exact absurd h (lt_irrefl _)

/-- C4: in the diagnosis category, a normalized diagnosis string present at
d1 and d3 but absent at d2 (with d1 < d2 < d3) yields exactly one interval
spanning d1 to d3: the reappearance after a one-visit gap is merged with the
original run and the original start date is kept. -/
theorem getDiagnosisGanttData_gap_single_interval (A d1 d2 d3 : String)
    (i : Nat) (hi : i ∈ ([0, 1, 2] : List Nat))
    (hA : normalizeConditionName A = A) (hAt : jsTrim A = A)
    (hcl : cleanDiagString A = A) (hA0 : A ≠ "")
    (h0 : d1 ≠ "") (h12 : jsStrLt d1 d2) (h23 : jsStrLt d2 d3) :
    getDiagnosisGanttData
      ⟨[{ d := d1, diag := some [some (.a [A]), some (.a [A]), some (.a [A])] },
        { d := d2, diag := some [some (.a []), some (.a []), some (.a [])] },
        { d := d3, diag := some [some (.a [A]), some (.a [A]), some (.a [A])] }]⟩ i
    = [⟨A, d1, d3⟩] := by
  have h13 := lt_trans h12 h23
  have n21 : ¬ jsStrLt d2 d1 := lt_asymm h12
  have n31 : ¬ jsStrLt d3 d1 := lt_asymm h13
  have n32 : ¬ jsStrLt d3 d2 := lt_asymm h23
  have e2 : d2 ≠ "" := jsStrLt_ne_empty h12
  have e3 : d3 ≠ "" := jsStrLt_ne_empty h23
  have nd12 : d1 ≠ d2 := jsStrLt_ne h12
  fin_cases hi <;>
    simp [getDiagnosisGanttData, sortVisitsByDate, insertByDate, diagVisitStep,
      collectDiagSlot, collectDiagList, slotAt, addToSet, trackerTouch,
      diagClosePass, updateConditionMap, updCondAux, hA, hAt, hcl, hA0,
      h0, e2, e3, nd12, n21, n31, n32, h12, h23, h13]

/-- Witness for C4 at the diagnosis "DR", three concrete dates and eye
index 0. -/
theorem getDiagnosisGanttData_gap_single_interval_witness :
    ((0 : Nat) ∈ ([0, 1, 2] : List Nat) ∧
        normalizeConditionName "DR" = "DR" ∧ jsTrim "DR" = "DR" ∧
        cleanDiagString "DR" = "DR" ∧ ("DR" : String) ≠ "" ∧
        ("2023-01-01" : String) ≠ "" ∧
        jsStrLt "2023-01-01" "2023-02-01" ∧
        jsStrLt "2023-02-01" "2023-03-01") ∧
      getDiagnosisGanttData
        ⟨[{ d := "2023-01-01",
            diag := some [some (.a ["DR"]), some (.a ["DR"]), some (.a ["DR"])] },
          { d := "2023-02-01",
            diag := some [some (.a []), some (.a []), some (.a [])] },
          { d := "2023-03-01",
            diag := some [some (.a ["DR"]), some (.a ["DR"]), some (.a ["DR"])] }]⟩ 0
      = [⟨"DR", "2023-01-01", "2023-03-01"⟩] :=
  ⟨⟨by decide, by decide, by decide, by decide, by decide, by decide,
      by decide, by decide⟩,
    getDiagnosisGanttData_gap_single_interval "DR" "2023-01-01" "2023-02-01"
      "2023-03-01" 0 (by decide) (by decide) (by decide) (by decide)
      (by decide) (by decide) (by decide) (by decide)⟩

/-- The occurrence one medication entry of a visit dated `d` contributes to
the key `task`: its date and dosage text, or nothing when the entry is
skipped or keyed differently. -/
def medOccOf (d : String) (med : MedEntry) (task : String) :
    Option (String × String) :=
  let drugName := jsTrim (med.name.getD "")
  if drugName = "" then none
  else if d = "" then none
  else if drugName ++ medEyeLabel med.eye = task then
    some (d, medDosageStr med)
  else none

/-- All (date, dosage-text) occurrences of the key `task` over the visits,
in processing order. -/
def medOccs (visits : List Visit) (task : String) : List (String × String) :=
  visits.flatMap
    (fun v =>
      match v.m with
      | some meds => meds.filterMap (fun med => medOccOf v.d med task)
      | none => [])

/-- The per-key shadow of `medStep`: how one occurrence transforms the
map entry of its key. -/
def medFoldStep (e : Option MedState) (p : String × String) : Option MedState :=
  let e0 := e.getD ⟨"9999-12-31", "0001-01-01", p.2⟩
  some ⟨if jsStrLt p.1 e0.start then p.1 else e0.start,
        if jsStrLt e0.finish p.1 then p.1 else e0.finish,
        if jsStrLt p.1 e0.start ∧ p.2 ≠ "" then p.2 else e0.dosage⟩

/-- Looking a key up after a `Map.set`. -/
theorem lookup_mapSetMed (mm : List (String × MedState)) (k : String)
    (e : MedState) (task : String) :
    List.lookup task (mapSetMed mm k e)
      = if task = k then some e else List.lookup task mm := by
  induction mm with
  | nil =>
    by_cases h : task = k
    · subst h
      simp [mapSetMed, List.lookup]
    · simp [mapSetMed, List.lookup, beq_eq_false_iff_ne.mpr h, h]
  | cons a t ih =>
    obtain ⟨k0, e0⟩ := a
    by_cases h1 : k0 = k
    · subst h1
      by_cases h2 : task = k0
      · subst h2
        simp [mapSetMed, List.lookup]
      · simp [mapSetMed, List.lookup, beq_eq_false_iff_ne.mpr h2, h2]
    · by_cases h3 : task = k0
      · have h4 : ¬ task = k := fun hc => h1 (h3.symm.trans hc)
        simp [mapSetMed, List.lookup, h1, beq_iff_eq.mpr h3, h4]
      · simp [mapSetMed, List.lookup, h1, beq_eq_false_iff_ne.mpr h3, ih]

/-- Model of `medStep` seen through the lookup of one fixed key: the step applies
`medFoldStep` exactly when the entry contributes an occurrence of that key. -/
theorem medStep_lookup (mm : List (String × MedState)) (d : String)
    (med : MedEntry) (task : String) :
    List.lookup task (medStep mm d med)
      = (medOccOf d med task).elim (List.lookup task mm)
          (fun p => medFoldStep (List.lookup task mm) p) := by
  by_cases c1 : jsTrim (med.name.getD "") = ""
  · simp [medStep, medOccOf, c1]
  · by_cases c2 : d = ""
    · simp [medStep, medOccOf, c1, c2]
    · by_cases c3 : jsTrim (med.name.getD "") ++ medEyeLabel med.eye = task
      · simp only [medStep, medOccOf, if_neg c1, if_neg c2, if_pos c3,
          Option.elim]
        rw [c3, lookup_mapSetMed, if_pos rfl]
        simp [medFoldStep]
      · simp only [medStep, medOccOf, if_neg c1, if_neg c2, if_neg c3,
          Option.elim]
        rw [lookup_mapSetMed, if_neg (fun hc => c3 hc.symm)]

/-- The medication fold of one visit's entries, seen through the lookup of
one fixed key. -/
theorem medsFold_lookup (meds : List MedEntry) (d : String)
    (mm : List (String × MedState)) (task : String) :
    List.lookup task (meds.foldl (fun a med => medStep a d med) mm)
      = (meds.filterMap (fun med => medOccOf d med task)).foldl medFoldStep
          (List.lookup task mm) := by
  induction meds generalizing mm with
  | nil => simp
  | cons med t ih =>
    rw [List.foldl_cons, ih, medStep_lookup]
    simp only [List.filterMap_cons]
    cases hocc : medOccOf d med task with
    | none => rfl
    | some p =>
      rw [List.foldl_cons]
      rfl

/-- The whole visit loop of `getMedicationsGanttData`, seen through the
lookup of one fixed key: it equals the `medFoldStep` fold over that key's
occurrence list. -/
theorem medLoop_lookup (visits : List Visit) (mm : List (String × MedState))
    (task : String) :
    List.lookup task (medVisitsFold visits mm)
      = (medOccs visits task).foldl medFoldStep (List.lookup task mm) := by
  induction visits generalizing mm with
  | nil => simp [medVisitsFold, medOccs]
  | cons v t ih =>
    cases hm : v.m with
    | none =>
      have h1 : medVisitsFold (v :: t) mm = medVisitsFold t mm := by
        simp [medVisitsFold, hm]
      have h2 : medOccs (v :: t) task = medOccs t task := by
        simp [medOccs, hm]
      rw [h1, h2, ih]
    | some meds =>
      have h1 : medVisitsFold (v :: t) mm
          = medVisitsFold t (meds.foldl (fun a med => medStep a v.d med) mm) := by
        simp [medVisitsFold, hm]
      have h2 : medOccs (v :: t) task
          = meds.filterMap (fun med => medOccOf v.d med task) ++ medOccs t task := by
        simp [medOccs, hm]
      rw [h1, h2, ih, List.foldl_append, medsFold_lookup]

/-- Keys of a medication map. -/
def medKeys (mm : List (String × MedState)) : List String := mm.map Prod.fst

/-- A key present after `Map.set` was present before or is the set key. -/
theorem mem_medKeys_mapSetMed {mm : List (String × MedState)} {k x : String}
    {e : MedState} (h : x ∈ medKeys (mapSetMed mm k e)) :
    x ∈ medKeys mm ∨ x = k := by
  induction mm with
  | nil =>
    simp [medKeys, mapSetMed] at h
    exact Or.inr h
  | cons a t ih =>
    obtain ⟨k0, e0⟩ := a
    by_cases h1 : k0 = k
    · subst h1
      simp [medKeys, mapSetMed] at h ⊢
      tauto
    · simp only [mapSetMed, if_neg h1, medKeys, List.map_cons,
        List.mem_cons] at h ⊢
      rcases h with h | h
      · exact Or.inl (Or.inl h)
      · rcases ih h with h' | h'
        · exact Or.inl (Or.inr h')
        · exact Or.inr h'

/-- Model of `Map.set` preserves key distinctness. -/
theorem nodup_mapSetMed {mm : List (String × MedState)} {k : String}
    {e : MedState} (h : (medKeys mm).Nodup) :
    (medKeys (mapSetMed mm k e)).Nodup := by
  induction mm with
  | nil => simp [medKeys, mapSetMed]
  | cons a t ih =>
    obtain ⟨k0, e0⟩ := a
    simp only [medKeys, List.map_cons, List.nodup_cons] at h
    by_cases h1 : k0 = k
    · subst h1
      have hset : mapSetMed ((k0, e0) :: t) k0 e = (k0, e) :: t := by
        simp [mapSetMed]
      rw [hset]
      simp only [medKeys, List.map_cons, List.nodup_cons]
      exact h
    · simp only [mapSetMed, if_neg h1, medKeys, List.map_cons,
        List.nodup_cons]
      refine ⟨fun hc => ?_, ih h.2⟩
      rcases mem_medKeys_mapSetMed hc with h' | h'
      · exact h.1 h'
      · exact h1 h'

/-- Model of `medStep` preserves key distinctness. -/
theorem nodup_medStep {mm : List (String × MedState)} {d : String}
    {med : MedEntry} (h : (medKeys mm).Nodup) :
    (medKeys (medStep mm d med)).Nodup := by
  unfold medStep
  by_cases c1 : jsTrim (med.name.getD "") = ""
  · simpa [c1] using h
  · by_cases c2 : d = ""
    · simpa [c1, c2] using h
    · simp only [if_neg c1, if_neg c2]
      exact nodup_mapSetMed h

/-- One visit's medication fold preserves key distinctness. -/
theorem nodup_medsFold (meds : List MedEntry) (d : String) :
    ∀ mm, (medKeys mm).Nodup →
      (medKeys (meds.foldl (fun a med => medStep a d med) mm)).Nodup := by
  induction meds with
  | nil =>
    intro mm h
    simpa using h
  | cons m t ih =>
    intro mm h
    rw [List.foldl_cons]
    exact ih _ (nodup_medStep h)

/-- The medication visit loop preserves key distinctness. -/
theorem nodup_medVisitsFold (visits : List Visit)
    (mm : List (String × MedState)) (h : (medKeys mm).Nodup) :
    (medKeys (medVisitsFold visits mm)).Nodup := by
  induction visits generalizing mm with
  | nil => simpa [medVisitsFold] using h
  | cons v t ih =>
    cases hm : v.m with
    | none =>
      have h1 : medVisitsFold (v :: t) mm = medVisitsFold t mm := by
        simp [medVisitsFold, hm]
      rw [h1]
      exact ih mm h
    | some meds =>
      have h1 : medVisitsFold (v :: t) mm
          = medVisitsFold t (meds.foldl (fun a med => medStep a v.d med) mm) := by
        simp [medVisitsFold, hm]
      rw [h1]
      exact ih _ (nodup_medsFold meds v.d mm h)

/-- A successful lookup yields a member binding. -/
theorem mem_of_lookup_med {mm : List (String × MedState)} {k : String}
    {e : MedState} (h : List.lookup k mm = some e) : (k, e) ∈ mm := by
  induction mm with
  | nil => simp [List.lookup] at h
  | cons a t ih =>
    obtain ⟨k0, e0⟩ := a
    rw [List.lookup] at h
    cases hb : (k == k0) with
    | true =>
      rw [hb] at h
      have hk : k = k0 := beq_iff_eq.mp hb
      have he : e0 = e := by simpa using h
      subst hk
      cases he
      exact List.mem_cons_self _ _
    | false =>
      rw [hb] at h
      exact List.mem_cons_of_mem _ (ih h)

/-- With distinct keys, a member binding is the lookup result. -/
theorem lookup_of_mem_nodup {mm : List (String × MedState)} {k : String}
    {e : MedState} (hnd : (medKeys mm).Nodup) (hm : (k, e) ∈ mm) :
    List.lookup k mm = some e := by
  induction mm with
  | nil => simp at hm
  | cons a t ih =>
    obtain ⟨k0, e0⟩ := a
    simp only [medKeys, List.map_cons, List.nodup_cons] at hnd
    rcases List.mem_cons.mp hm with h | h
    · have hk : k = k0 := congrArg Prod.fst h
      have he : e = e0 := congrArg Prod.snd h
      subst hk
      subst he
      simp [List.lookup]
    · have hk : k ≠ k0 := by
        intro hkk
        subst hkk
        exact hnd.1 (List.mem_map_of_mem Prod.fst h)
      rw [List.lookup]
      rw [show (k == k0) = false from beq_eq_false_iff_ne.mpr hk]
      exact ih hnd.2 h

/-- Occurrences dated strictly after `d0` keep the running minimum start
strictly after `d0` (or the entry nonexistent). -/
theorem medFold_gt (d0 : String) (hhi : jsStrLt d0 "9999-12-31") :
    ∀ (l : List (String × String)), (∀ p ∈ l, jsStrLt d0 p.1) →
    ∀ (o : Option MedState),
      (o = none ∨ ∃ s, o = some s ∧ jsStrLt d0 s.start) →
      (l.foldl medFoldStep o = none ∨
        ∃ s, l.foldl medFoldStep o = some s ∧ jsStrLt d0 s.start) := by
  intro l
  induction l with
  | nil => intro _ o ho; exact ho
  | cons p t ih =>
    intro hl o ho
    rw [List.foldl_cons]
    refine ih (fun q hq => hl q (List.mem_cons_of_mem _ hq)) _ (Or.inr ?_)
    have hp : jsStrLt d0 p.1 := hl p (List.mem_cons_self _ _)
    rcases ho with rfl | ⟨s, rfl, hs⟩
    · refine ⟨_, rfl, ?_⟩
      simp only [medFoldStep, Option.getD_none]
      by_cases hc : jsStrLt p.1 "9999-12-31"
      · simpa [hc] using hp
      · simpa [hc] using hhi
    · refine ⟨_, rfl, ?_⟩
      simp only [medFoldStep, Option.getD_some]
      by_cases hc : jsStrLt p.1 s.start
      · simpa [hc] using hp
      · simpa [hc] using hs

/-- Once the entry has start `d0` and dosage `dos0`, occurrences dated
strictly after `d0` change neither, and the max end stays above the lower
sentinel. -/
theorem medFold_keep (d0 dos0 : String) (hlo : jsStrLt "0001-01-01" d0) :
    ∀ (l : List (String × String)), (∀ p ∈ l, jsStrLt d0 p.1) →
    ∀ (s : MedState), s.start = d0 → s.dosage = dos0 →
      jsStrLt "0001-01-01" s.finish →
      ∃ s', l.foldl medFoldStep (some s) = some s' ∧ s'.start = d0 ∧
        s'.dosage = dos0 ∧ jsStrLt "0001-01-01" s'.finish := by
  intro l
  induction l with
  | nil =>
    intro _ s h1 h2 h3
    exact ⟨s, rfl, h1, h2, h3⟩
  | cons p t ih =>
    intro hl s h1 h2 h3
    rw [List.foldl_cons]
    have hp : jsStrLt d0 p.1 := hl p (List.mem_cons_self _ _)
    have hns : ¬ jsStrLt p.1 s.start := h1 ▸ lt_asymm hp
    have hstep : medFoldStep (some s) p
        = some ⟨s.start, if jsStrLt s.finish p.1 then p.1 else s.finish,
            s.dosage⟩ := by
      simp [medFoldStep, hns]
    rw [hstep]
    refine ih (fun q hq => hl q (List.mem_cons_of_mem _ hq)) _ h1 h2 ?_
    by_cases hc : jsStrLt s.finish p.1
    · simpa [hc] using lt_trans hlo hp
    · simpa [hc] using h3

/-- The pivot lemma: folding the occurrence list of a key whose unique
earliest occurrence `(d0, dos0)` has non-empty dosage text yields an entry
with start `d0` and dosage `dos0`. -/
theorem medFold_pivot (l1 l2 : List (String × String)) (d0 dos0 : String)
    (hdos : dos0 ≠ "")
    (h1 : ∀ p ∈ l1, jsStrLt d0 p.1) (h2 : ∀ p ∈ l2, jsStrLt d0 p.1)
    (hlo : jsStrLt "0001-01-01" d0) (hhi : jsStrLt d0 "9999-12-31") :
    ∃ e, (l1 ++ (d0, dos0) :: l2).foldl medFoldStep none = some e ∧
      e.start = d0 ∧ e.dosage = dos0 ∧ jsStrLt "0001-01-01" e.finish := by
  rw [List.foldl_append, List.foldl_cons]
  have ho := medFold_gt d0 hhi l1 h1 none (Or.inl rfl)
  have hpiv : ∃ s1, medFoldStep (l1.foldl medFoldStep none) (d0, dos0)
      = some s1 ∧ s1.start = d0 ∧ s1.dosage = dos0 ∧
      jsStrLt "0001-01-01" s1.finish := by
    rcases ho with hn | ⟨s, hs, hgt⟩
    · rw [hn]
      refine ⟨_, rfl, ?_, ?_, ?_⟩
      · simp [medFoldStep, hhi]
      · simp [medFoldStep, hhi, hdos]
      · simp only [medFoldStep, Option.getD_none]
        simp [hlo]
    · rw [hs]
      refine ⟨_, rfl, ?_, ?_, ?_⟩
      · simp [medFoldStep, hgt]
      · simp [medFoldStep, hgt, hdos]
      · simp only [medFoldStep, Option.getD_some]
        by_cases hc : jsStrLt s.finish d0
        · simpa [hc] using hlo
        · have hle : d0.data ≤ s.finish.data := not_lt.mp hc
          simpa [hc] using lt_of_lt_of_le hlo hle
  obtain ⟨s1, hs1, ha, hb, hc⟩ := hpiv
  rw [hs1]
  exact medFold_keep d0 dos0 hlo l2 h2 s1 ha hb hc

/-- C6 amended: for every medication key, if some occurrence has non-empty
dosage text and a strictly earlier date than every other occurrence of that
key, the emitted dosage equals that occurrence's dosage text, regardless of
arrival order; when the earliest-dated occurrence has empty dosage text the
emitted dosage can differ from the earliest non-empty one (see the
counterexample). -/
theorem getMedicationsGanttData_unique_min_dosage (pd : PatientData)
    (task : String) (l1 l2 : List (String × String)) (d0 dos0 : String)
    (hocc : medOccs pd.visits task = l1 ++ (d0, dos0) :: l2)
    (hdos : dos0 ≠ "")
    (hmin : ∀ p ∈ l1 ++ l2, jsStrLt d0 p.1)
    (hlo : jsStrLt "0001-01-01" d0) (hhi : jsStrLt d0 "9999-12-31") :
    (∃ g ∈ getMedicationsGanttData pd,
        g.task = task ∧ g.start = d0 ∧ g.dosage = dos0) ∧
      ∀ g ∈ getMedicationsGanttData pd, g.task = task → g.dosage = dos0 := by
  have hlk : List.lookup task (medVisitsFold pd.visits [])
      = (medOccs pd.visits task).foldl medFoldStep none := by
    rw [medLoop_lookup]
    rfl
  rw [hocc] at hlk
  obtain ⟨e, he, hest, hedos, hefin⟩ := medFold_pivot l1 l2 d0 dos0 hdos
    (fun p hp => hmin p (List.mem_append_left _ hp))
    (fun p hp => hmin p (List.mem_append_right _ hp)) hlo hhi
  have hmm : List.lookup task (medVisitsFold pd.visits []) = some e :=
    hlk.trans he
  have hmem : (task, e) ∈ medVisitsFold pd.visits [] := mem_of_lookup_med hmm
  have hnd : (medKeys (medVisitsFold pd.visits [])).Nodup :=
    nodup_medVisitsFold pd.visits [] (by simp [medKeys])
  have hs9 : e.start ≠ "9999-12-31" := hest ▸ jsStrLt_ne hhi
  have hf0 : e.finish ≠ "0001-01-01" := (jsStrLt_ne hefin).symm
  constructor
  · refine ⟨⟨task, e.start, e.finish, e.dosage⟩, ?_, rfl, hest, hedos⟩
    simp only [getMedicationsGanttData, List.mem_filter]
    refine ⟨?_, by simp [hs9, hf0]⟩
    exact List.mem_map_of_mem _ hmem
  · intro g hg hgt
    simp only [getMedicationsGanttData, List.mem_filter] at hg
    obtain ⟨⟨k, e2⟩, hke, hgeq⟩ := List.mem_map.mp hg.1
    have hk : k = task := by
      rw [← hgt, ← hgeq]
    have he2 : List.lookup task (medVisitsFold pd.visits []) = some e2 :=
      lookup_of_mem_nodup hnd (hk ▸ hke)
    have hee : e = e2 := Option.some.inj (hmm.symm.trans he2)
    rw [← hgeq]
    exact (hee ▸ hedos : e2.dosage = dos0)

/-- Witness for the amended C6 at a record whose earliest-dated TIMOLOL
occurrence carries the dosage "A". -/
theorem getMedicationsGanttData_unique_min_dosage_witness :
    (medOccs [⟨"2023-06-01", none, none, none,
        some [{ name := some "TIMOLOL", dos := some "B" }], none⟩,
      ⟨"2023-01-01", none, none, none,
        some [{ name := some "TIMOLOL", dos := some "A" }], none⟩] "TIMOLOL"
      = [("2023-06-01", "B"), ("2023-01-01", "A")]) ∧
    ∃ g ∈ getMedicationsGanttData
        ⟨[⟨"2023-06-01", none, none, none,
            some [{ name := some "TIMOLOL", dos := some "B" }], none⟩,
          ⟨"2023-01-01", none, none, none,
            some [{ name := some "TIMOLOL", dos := some "A" }], none⟩]⟩,
      g.task = "TIMOLOL" ∧ g.start = "2023-01-01" ∧ g.dosage = "A" := by
  constructor
  · decide
  · exact (getMedicationsGanttData_unique_min_dosage _ "TIMOLOL"
      [("2023-06-01", "B")] [] "2023-01-01" "A" (by decide) (by decide)
      (by decide) (by decide) (by decide)).1
